import Mathlib

/-!
Verification of the pyromb catchment-graph core.

Shallow embedding of:
* `src/pyromb/core/catchment.py` (class `Catchment`): vertex lookup by
  minimum distance (`_find_closest_vertex`), first-match lookup by
  coordinates (`_find_vertex_by_coordinates`), outlet detection
  (`_find_out_node`), the breadth-first incidence builder
  (`_build_incidence_matrices`) and the `connect` orchestration.
* `qgis2rorb/model/wbnm.py` (`WBNM._getDsIndex`): the recursive
  downstream-skip resolution.

Modelling conventions:
* Python floats are modelled as exact rationals.  The source compares
  Euclidean distances (`math.hypot`) with tolerances; every such
  comparison is modelled by comparing squared distances with squared
  tolerances, which is equivalent because squaring is strictly monotone
  on nonnegative reals.  The source default tolerances 1e-6
  (`_find_closest_vertex`) and 1e-1 (`_find_vertex_by_coordinates`)
  therefore appear below as the squared constants `closeTolSq` and
  `reIdTolSq`.
* numpy integer matrices are modelled as total functions
  `Nat → Nat → Int`; all indices written by the source are in range, so
  the dense shape carries no extra information.
* Python exceptions are modelled with `Except` (`ValueError` raised by
  `_find_out_node` becomes `ConnectError.noOutlet`; the `IndexError`
  raised by `Reach.getStart`/`getEnd` on an empty polyline becomes
  `ConnectError.indexError`).
* The unbounded Python recursion in `WBNM._getDsIndex` is given an
  explicit fuel argument; the result `none` means the call has not
  returned within `fuel` recursive steps (or hit an out-of-range node
  lookup, which raises in Python).
-/

namespace Pyromb

/-- A point, from `pyromb/core/geometry/point.py`; coordinates are
modelled as exact rationals. -/
structure Point where
  x : ℚ
  y : ℚ
deriving DecidableEq

/-- Squared Euclidean distance between two points.  The source computes
`math.hypot(ax - bx, ay - by)`; all its uses compare the distance with a
tolerance or with another distance, so the squared form is an exact
model. -/
def distSq (a b : Point) : ℚ :=
  (a.x - b.x) * (a.x - b.x) + (a.y - b.y) * (a.y - b.y)

/-- Modelled from the spec: the `Basin` and `Confluence` classes
(`core/attributes/basin.py` and `core/attributes/confluence.py` are not
in the sources).  Per spec section 3, a Basin carries area and
impervious fraction, a Confluence carries the boolean outlet flag; the
variant tag replaces the `isinstance` checks of the source. -/
inductive NodeKind where
  | basin (area : ℚ) (fi : ℚ)
  | confluence (isOut : Bool)
deriving DecidableEq

/-- A vertex of the catchment, from `pyromb/core/attributes/node.py`
(a `Node` is a `Point` with a name), tagged with its concrete class. -/
structure Node extends Point where
  name : String := ""
  kind : NodeKind
deriving DecidableEq

/-- `isinstance(vertex, Confluence) and vertex.isOut` from
`Catchment._find_out_node`. -/
def Node.isOutConf (n : Node) : Bool :=
  match n.kind with
  | .confluence b => b
  | .basin _ _ => false

/-- A reach, from `pyromb/core/attributes/reach.py`: a polyline of
nodes.  Only the first and last points are consumed by the core. -/
structure Reach where
  name : String := ""
  vector : List Node
deriving DecidableEq

/-- `Reach.getStart`: `self._vector[0]`; `none` models the `IndexError`
raised on an empty polyline. -/
def Reach.getStart (r : Reach) : Option Node := r.vector.head?

/-- `Reach.getEnd`: `self._vector[-1]`; `none` models the `IndexError`
raised on an empty polyline. -/
def Reach.getEnd (r : Reach) : Option Node := r.vector.getLast?

/-- The reserved sentinel `-1` (`self._endSentinel` in `Catchment`,
`self._endSentinel` in the spec's Traveller). -/
def endSentinel : Int := -1

/-- Squared form of the default tolerance `tol = 1e-6` of
`Catchment._find_closest_vertex`. -/
def closeTolSq : ℚ := (1 / 1000000) * (1 / 1000000)

/-- Squared form of the default tolerance `tol = 1e-1` of
`Catchment._find_vertex_by_coordinates`. -/
def reIdTolSq : ℚ := (1 / 10) * (1 / 10)

/-- Loop of `Catchment._find_closest_vertex`: scan the vertices,
tracking the least (squared) distance seen so far and the index where it
was attained.  `none` as the accumulator models Python's initial
`min_distance = float("inf")`. -/
def fcLoop (p : Point) : List Node → Nat → Option ℚ → Int → Option ℚ × Int
  | [], _, best, bidx => (best, bidx)
  | v :: rest, k, best, bidx =>
    let d := distSq v.toPoint p
    match best with
    | none => fcLoop p rest (k + 1) (some d) (k : Int)
    | some m =>
      if d < m then fcLoop p rest (k + 1) (some d) (k : Int)
      else fcLoop p rest (k + 1) (some m) bidx

/-- `Catchment._find_closest_vertex(node, tol)`: index of the vertex at
minimum distance from `node`, or `-1` when that minimum exceeds the
tolerance (in particular when the vertex list is empty). -/
def find_closest_vertex (vertices : List Node) (p : Point) (tolSq : ℚ) : Int :=
  match fcLoop p vertices 0 none (-1) with
  | (none, _) => -1
  | (some m, bidx) => if tolSq < m then -1 else bidx

/-- Loop of `Catchment._find_vertex_by_coordinates`: return the first
index whose (squared) distance from `coords` is within the tolerance. -/
def fvbcLoop (p : Point) (tolSq : ℚ) : List Node → Nat → Int
  | [], _ => -1
  | v :: rest, k =>
    if distSq v.toPoint p ≤ tolSq then (k : Int) else fvbcLoop p tolSq rest (k + 1)

/-- `Catchment._find_vertex_by_coordinates(coords, tol)`. -/
def find_vertex_by_coordinates (vertices : List Node) (p : Point) (tolSq : ℚ) : Int :=
  fvbcLoop p tolSq vertices 0

/-- A numpy integer matrix, modelled as a total function from (row,
column) to the stored value; every index the source writes is within the
allocated shape, so the shape itself carries no information. -/
def Mat : Type := Nat → Nat → Int

/-- `np.zeros((num_vertices, num_edges), dtype=int)`. -/
def zeroMat : Mat := fun _ _ => 0

/-- `np.full((num_vertices, num_edges), self._endSentinel, dtype=int)`. -/
def sentinelMat : Mat := fun _ _ => endSentinel

/-- A single numpy element assignment `m[i, j] = v`. -/
def mupd (m : Mat) (i j : Nat) (v : Int) : Mat :=
  fun a b => if a = i ∧ b = j then v else m a b

/-- The Python exceptions `connect` can raise: the `ValueError` from
`_find_out_node` and the `IndexError` from reading the first/last point
of an empty reach polyline. -/
inductive ConnectError where
  | noOutlet
  | indexError
deriving DecidableEq

/-- Decidable equality for `Except` results, used to evaluate the
embedding on concrete inputs. -/
instance {e a : Type} [DecidableEq e] [DecidableEq a] : DecidableEq (Except e a) :=
  fun x y =>
    match x, y with
    | .error u, .error w =>
      if h : u = w then .isTrue (by rw [h]) else .isFalse (by simp [h])
    | .ok u, .ok w =>
      if h : u = w then .isTrue (by rw [h]) else .isFalse (by simp [h])
    | .error _, .ok _ => .isFalse (by simp)
    | .ok _, .error _ => .isFalse (by simp)

/-- The per-edge endpoint binding shared by both loops of `connect`:
resolve the start and end points to their closest vertices with the
default (tight) tolerance of `_find_closest_vertex`; `ok none` models
the logged-and-skipped case where either lookup fails, `error` the
`IndexError` on an empty polyline. -/
def bindEndpoints (vertices : List Node) (r : Reach) : Except ConnectError (Option (Nat × Nat)) :=
  match r.getStart, r.getEnd with
  | some sn, some tn =>
    let si := find_closest_vertex vertices sn.toPoint closeTolSq
    let ti := find_closest_vertex vertices tn.toPoint closeTolSq
    if si = -1 ∨ ti = -1 then .ok none else .ok (some (si.toNat, ti.toNat))
  | _, _ => .error .indexError

/-- First loop of `connect` (and body of
`_initialize_connection_matrix`): tag each bound edge's start vertex
with `1` (upstream end) and its end vertex with `2` (downstream end) in
the connection matrix. -/
def connLoop (vertices : List Node) : List Reach → Nat → Mat → Except ConnectError Mat
  | [], _, m => .ok m
  | r :: rest, e, m =>
    match bindEndpoints vertices r with
    | .error err => .error err
    | .ok none => connLoop vertices rest (e + 1) m
    | .ok (some (s, t)) => connLoop vertices rest (e + 1) (mupd (mupd m s e 1) t e 2)

/-- `Catchment._find_out_node` scan: index of the first vertex that is a
`Confluence` with `isOut` set; `none` models the raised `ValueError`. -/
def findOutAux : List Node → Nat → Option Nat
  | [], _ => none
  | v :: rest, i => if v.isOutConf then some i else findOutAux rest (i + 1)

/-- `Catchment._find_out_node`. -/
def find_out_node (vertices : List Node) : Option Nat :=
  findOutAux vertices 0

/-- Second loop of `connect`: for every edge whose two endpoints bind,
set `DS[start, e] = end` and `US[end, e] = start`; unbound edges leave
both columns at the sentinel. -/
def popLoop (vertices : List Node) :
    List Reach → Nat → Mat × Mat → Except ConnectError (Mat × Mat)
  | [], _, m => .ok m
  | r :: rest, e, (ds, us) =>
    match bindEndpoints vertices r with
    | .error err => .error err
    | .ok none => popLoop vertices rest (e + 1) (ds, us)
    | .ok (some (s, t)) =>
      popLoop vertices rest (e + 1) (mupd ds s e (t : Int), mupd us t e (s : Int))

/-- The pure computation performed by `Catchment.connect` on the stored
vertex and edge lists: build the connection matrix (computed, logged,
and otherwise unused by `connect`), find the outlet, then fill the two
incidence matrices with the per-edge loop.  Returns the downstream
matrix, the upstream matrix and the outlet index. -/
def connectResult (vertices : List Node) (edges : List Reach) :
    Except ConnectError (Mat × Mat × Nat) :=
  match connLoop vertices edges 0 zeroMat with
  | .error err => .error err
  | .ok _ =>
    match find_out_node vertices with
    | none => .error .noOutlet
    | some oi =>
      match popLoop vertices edges 0 (sentinelMat, sentinelMat) with
      | .error err => .error err
      | .ok (ds, us) => .ok (ds, us, oi)

/-- The `Catchment` object (`pyromb/core/catchment.py`): edge and vertex
lists plus the fields mutated by `connect`. -/
structure Catchment where
  edges : List Reach
  vertices : List Node
  incidenceMatrixDS : Mat
  incidenceMatrixUS : Mat
  out_node_index : Int

/-- `Catchment.__init__(confluences, basins, reaches)`: the vertex list
is the confluences followed by the basins; the incidence matrices start
empty (modelled by the all-zero function, never read before being
overwritten) and the outlet index starts at `-1`. -/
def Catchment.init (confluences : List Node) (basins : List Node) (reaches : List Reach) :
    Catchment :=
  { edges := reaches
    vertices := confluences ++ basins
    incidenceMatrixDS := zeroMat
    incidenceMatrixUS := zeroMat
    out_node_index := -1 }

/-- `Catchment.connect`: run the pure computation on the stored lists,
store the results, and return the (downstream, upstream) pair together
with the updated object (the mutated `self`).  A raised exception leaves
the object unchanged, which the `Except.error` case models by carrying
no object at all. -/
def Catchment.connect (c : Catchment) : Except ConnectError (Mat × Mat × Catchment) :=
  match connectResult c.vertices c.edges with
  | .error err => .error err
  | .ok (ds, us, oi) =>
    .ok (ds, us,
      { c with
        incidenceMatrixDS := ds
        incidenceMatrixUS := us
        out_node_index := (oi : Int) })

/-- Inner edge scan of one BFS dequeue step in
`Catchment._build_incidence_matrices`: for each edge index, if the
connection matrix tags the current vertex with `wantTag` and the
(vertex, edge) pair is uncoloured, colour it, re-identify the opposite
endpoint of the edge by coordinates (with the loose default tolerance of
`_find_vertex_by_coordinates`), record it in the incidence matrix and
collect it for enqueueing.  `useEnd` selects `edge.getEnd()` (upstream
propagation, tag `1`) versus `edge.getStart()` (downstream propagation,
tag `2`). -/
def bfsScan (vertices : List Node) (conn : Mat) (wantTag : Int) (useEnd : Bool) (cur : Nat) :
    List (Nat × Reach) → Mat → Mat → List (Nat × Int) →
    Except ConnectError (Mat × Mat × List (Nat × Int))
  | [], colour, inc, newQ => .ok (colour, inc, newQ)
  | (e, r) :: rest, colour, inc, newQ =>
    if conn cur e ≠ wantTag then bfsScan vertices conn wantTag useEnd cur rest colour inc newQ
    else if colour cur e ≠ 0 then bfsScan vertices conn wantTag useEnd cur rest colour inc newQ
    else
      let colour1 := mupd colour cur e 1
      match (if useEnd then r.getEnd else r.getStart) with
      | none => .error .indexError
      | some nd =>
        let vi := find_vertex_by_coordinates vertices nd.toPoint reIdTolSq
        if vi = -1 then bfsScan vertices conn wantTag useEnd cur rest colour1 inc newQ
        else
          bfsScan vertices conn wantTag useEnd cur rest colour1
            (mupd inc cur e vi) (newQ ++ [(vi.toNat, (e : Int))])

/-- Outer queue loop of one propagation in
`_build_incidence_matrices`.  `fuel` bounds the number of dequeue
steps; the Python loop needs at most one step per coloured (vertex,
edge) pair plus one, so any larger fuel returns `some`.  Queue entries
are (vertex index, incoming edge index); the incoming edge is carried
but never read, exactly as in the source. -/
def bfsLoop (vertices : List Node) (edges : List Reach) (conn : Mat) (wantTag : Int)
    (useEnd : Bool) :
    Nat → List (Nat × Int) → Mat → Mat → Option (Except ConnectError Mat)
  | _ + 1, [], _, inc => some (.ok inc)
  | fuel + 1, (cur, _) :: qrest, colour, inc =>
    match bfsScan vertices conn wantTag useEnd cur edges.enum colour inc [] with
    | .error err => some (.error err)
    | .ok (colour1, inc1, newQ) => bfsLoop vertices edges conn wantTag useEnd fuel (qrest ++ newQ) colour1 inc1
  | 0, _, _, _ => none

/-- `Catchment._build_incidence_matrices(connection_matrix, ds, us)`:
the upstream propagation (tag `1`, opposite endpoint `getEnd`) runs
first, then the downstream propagation (tag `2`, opposite endpoint
`getStart`), both seeded with the queue `[(out_node_index, -1)]` and a
fresh all-zero colour matrix.  Note `connect` never calls this
function; it is embedded here to compare its output with the tables
`connect` actually returns. -/
def build_incidence_matrices (vertices : List Node) (edges : List Reach) (conn : Mat)
    (ds us : Mat) (outIdx : Nat) (fuel : Nat) : Option (Except ConnectError (Mat × Mat)) :=
  match bfsLoop vertices edges conn 1 true fuel [(outIdx, -1)] zeroMat us with
  | none => none
  | some (.error err) => some (.error err)
  | some (.ok us1) =>
    match bfsLoop vertices edges conn 2 false fuel [(outIdx, -1)] zeroMat ds with
    | none => none
    | some (.error err) => some (.error err)
    | some (.ok ds1) => some (.ok (ds1, us1))

/-!  The Traveller surface used by `WBNM._getDsIndex`. -/

/-- Modelled from the spec: the Traveller cursor of spec section 4.4
(`core/traveller.py` is not in the sources; only its caller
`qgis2rorb/model/wbnm.py` is).  `_getDsIndex` uses three members:
`getNode(index)` (direct vertex lookup, an `IndexOutOfRange` error
outside `[0, vertexCount)`), `down(index)` (the single vertex directly
downstream of `index`, or the end sentinel for the outlet) and the
reserved end sentinel `-1`.  `down` is carried as one entry per vertex
in `downs`; an out-of-range argument, an error per the spec, is mapped
to the sentinel, which the subsequent `getNode` then rejects — so
error propagation is preserved. -/
structure Traveller where
  nodes : List Node
  downs : List Int

/-- Modelled from the spec: `Traveller.getNode(index)`; `none` is the
`IndexOutOfRange` failure. -/
def Traveller.getNode (t : Traveller) (i : Int) : Option Node :=
  if h : 0 ≤ i ∧ i.toNat < t.nodes.length then some (t.nodes.get ⟨i.toNat, h.2⟩) else none

/-- Modelled from the spec: `Traveller.down(index)`. -/
def Traveller.down (t : Traveller) (i : Int) : Int :=
  if h : 0 ≤ i ∧ i.toNat < t.downs.length then t.downs.get ⟨i.toNat, h.2⟩ else endSentinel

/-- `WBNM._getDsIndex(traveller, i)` from `qgis2rorb/model/wbnm.py`:
look one step downstream; a Basin is returned, the outlet Confluence
yields the end sentinel, and any other Confluence is skipped by a
recursive call.  The Python recursion is unbounded, so the embedding
carries explicit fuel: `none` means the call has not returned within
`fuel` nested calls (or that a node lookup failed, which raises in
Python). -/
def getDsIndex (t : Traveller) : Nat → Int → Option Int
  | 0, _ => none
  | fuel + 1, i =>
    let ds := t.down i
    match t.getNode ds with
    | none => none
    | some n =>
      match n.kind with
      | .basin _ _ => some ds
      | .confluence true => some endSentinel
      | .confluence false => getDsIndex t fuel ds

/-- Iterated `Traveller.down`: the chain of vertices reached from `i`
by repeatedly following the single downstream link. -/
def chainD (t : Traveller) (i : Int) : Nat → Int
  | 0 => i
  | k + 1 => t.down (chainD t i k)

/-!  Concrete inputs used by the witnesses and counterexamples. -/

/-- A catchment whose two vertices are both outlet-flagged Confluences
(and no edges). -/
def twoOutCatch : Catchment :=
  Catchment.init
    [{ x := 0, y := 0, kind := .confluence true },
     { x := 1, y := 0, kind := .confluence true }]
    [] []

/-- Outlet `O` at the origin, a second (non-outlet) Confluence `K` at
(2,0), one Basin `A` at (1,0), and two reaches that both start at `A`:
`A → O` and `A → K`.  Vertex indices: `O = 0`, `K = 1`, `A = 2`. -/
def c2Catch : Catchment :=
  Catchment.init
    [{ x := 0, y := 0, kind := .confluence true },
     { x := 2, y := 0, kind := .confluence false }]
    [{ x := 1, y := 0, kind := .basin 1 0 }]
    [{ vector := [{ x := 1, y := 0, kind := .basin 0 0 },
                  { x := 0, y := 0, kind := .basin 0 0 }] },
     { vector := [{ x := 1, y := 0, kind := .basin 0 0 },
                  { x := 2, y := 0, kind := .basin 0 0 }] }]

/-- Outlet `O` at the origin, Basins `A` (1,0), `B` (5,0), `C` (6,0);
reach 0 joins `A` to `O`, reach 1 joins `B` to `C` — a component that is
disconnected from the outlet.  Vertex indices: `O = 0`, `A = 1`,
`B = 2`, `C = 3`. -/
def c3Catch : Catchment :=
  Catchment.init
    [{ x := 0, y := 0, kind := .confluence true }]
    [{ x := 1, y := 0, kind := .basin 1 0 },
     { x := 5, y := 0, kind := .basin 1 0 },
     { x := 6, y := 0, kind := .basin 1 0 }]
    [{ vector := [{ x := 1, y := 0, kind := .basin 0 0 },
                  { x := 0, y := 0, kind := .basin 0 0 }] },
     { vector := [{ x := 5, y := 0, kind := .basin 0 0 },
                  { x := 6, y := 0, kind := .basin 0 0 }] }]

/-- The connection matrix, the result of `connect`, and the result of
the (dead-code) BFS builder for `c3Catch`, all with the sentinel-filled
initial incidence matrices and ample fuel. -/
def c3Conn : Except ConnectError Mat :=
  connLoop c3Catch.vertices c3Catch.edges 0 zeroMat

def c3Bfs : Option (Except ConnectError (Mat × Mat)) :=
  match c3Conn with
  | .error err => some (.error err)
  | .ok conn =>
    build_incidence_matrices c3Catch.vertices c3Catch.edges conn sentinelMat sentinelMat 0 20

/-- The (downstream, upstream) entries of the BFS builder's output at
the (vertex, edge) pairs `(B, 1)` and `(C, 1)` of `c3Catch` — the pairs
the per-edge loop of `connect` fills for the disconnected reach. -/
def c3BfsEntry : Option (Int × Int) :=
  match c3Bfs with
  | some (.ok (dsB, usB)) => some (dsB 2 1, usB 3 1)
  | _ => none

/-- Outlet `O` at the origin and Basin `A` at (10,0); the single reach
starts at (10, 1/20) — off `A` by 0.05 spatial units — and ends exactly
on `O`. -/
def c6Catch : Catchment :=
  Catchment.init
    [{ x := 0, y := 0, kind := .confluence true }]
    [{ x := 10, y := 0, kind := .basin 1 0 }]
    [{ vector := [{ x := 10, y := 1/20, kind := .basin 0 0 },
                  { x := 0, y := 0, kind := .basin 0 0 }] }]

/-- Two vertices for the C8 comparison: the first is 0.09 from the
query point, the second 0.01; both are within the loose tolerance. -/
def vs8 : List Node :=
  [{ x := 9/100, y := 0, kind := .basin 1 0 },
   { x := 1/100, y := 0, kind := .basin 1 0 }]

/-- Vertices for the C7 witness: the query point sits exactly on the
second vertex. -/
def vs7 : List Node :=
  [{ x := 0, y := 0, kind := .confluence true },
   { x := 1, y := 0, kind := .basin 1 0 }]

/-- A single-outlet, edge-free catchment for the idempotence witness. -/
def demo9 : Catchment :=
  Catchment.init [{ x := 0, y := 0, kind := .confluence true }] [] []

/-- `demo9` after `connect` has stored its results. -/
def demo9c : Catchment :=
  { demo9 with
    incidenceMatrixDS := sentinelMat
    incidenceMatrixUS := sentinelMat
    out_node_index := 0 }

/-- Modelled from the spec: the chain
Basin → Confluence → Confluence → Basin → Outlet of spec section 8,
as a Traveller.  Vertex `i` flows downstream to vertex `i + 1`; the
outlet's `down` is the end sentinel. -/
def chainT : Traveller :=
  { nodes :=
      [{ x := 0, y := 0, kind := .basin 1 0 },
       { x := 1, y := 0, kind := .confluence false },
       { x := 2, y := 0, kind := .confluence false },
       { x := 3, y := 0, kind := .basin 1 0 },
       { x := 4, y := 0, kind := .confluence true }]
    downs := [1, 2, 3, 4, -1] }

/-- A two-vertex cycle of non-outlet Confluences: each is the other's
downstream vertex. -/
def cycT : Traveller :=
  { nodes :=
      [{ x := 0, y := 0, kind := .confluence false },
       { x := 1, y := 0, kind := .confluence false }]
    downs := [1, 0] }

/-!  Helper lemmas. -/

/-- Eliminating a successful `connect`: recover the pure computation and
the shape of the updated object. -/
lemma connect_ok_elim {c : Catchment} {ds us : Mat} {c' : Catchment}
    (h : c.connect = .ok (ds, us, c')) :
    ∃ oi, connectResult c.vertices c.edges = .ok (ds, us, oi) ∧
      c' = { c with
              incidenceMatrixDS := ds
              incidenceMatrixUS := us
              out_node_index := (oi : Int) } := by
  unfold Catchment.connect at h
  cases hr : connectResult c.vertices c.edges with
  | error err => rw [hr] at h; exact absurd h (by simp)
  | ok v =>
    obtain ⟨ds0, us0, oi0⟩ := v
    rw [hr] at h
    simp only [Except.ok.injEq, Prod.mk.injEq] at h
    obtain ⟨h1, h2, h3⟩ := h
    subst h1
    subst h2
    subst h3
    exact ⟨oi0, rfl, rfl⟩

/-!  Claim C9: connect is idempotent / recomputes from scratch. -/

/-- Claim C9 (confirmed): a second `connect` on the unmodified object
recomputes from the stored vertices and edges and returns the identical
downstream and upstream tables and the same object. -/
theorem connect_idempotent (c : Catchment) (ds us : Mat) (c' : Catchment)
    (h : c.connect = .ok (ds, us, c')) : c'.connect = .ok (ds, us, c') := by
  obtain ⟨oi, hr, hc'⟩ := connect_ok_elim h
  have hv : c'.vertices = c.vertices := by rw [hc']
  have he : c'.edges = c.edges := by rw [hc']
  unfold Catchment.connect
  rw [hv, he, hr]
  dsimp only
  rw [← hc']

/-- Witness for C9 at a concrete one-vertex catchment. -/
theorem connect_idempotent_witness :
    demo9c.connect = .ok (sentinelMat, sentinelMat, demo9c) :=
  connect_idempotent demo9 sentinelMat sentinelMat demo9c rfl

/-!  Claim C10: vertex list layout and preservation by connect. -/

/-- Claim C10 (confirmed): the constructor stores the confluences
followed by the basins, so index `i` denotes `confluences[i]` below the
split point and `basins[i - |confluences|]` above it, and a successful
`connect` changes neither the vertex list nor the edge list. -/
theorem init_layout_connect_preserves :
    (∀ (confluences basins : List Node) (reaches : List Reach),
      (Catchment.init confluences basins reaches).vertices = confluences ++ basins ∧
      (Catchment.init confluences basins reaches).edges = reaches ∧
      (∀ i, i < confluences.length →
        ((Catchment.init confluences basins reaches).vertices)[i]? = confluences[i]?) ∧
      (∀ i, confluences.length ≤ i →
        ((Catchment.init confluences basins reaches).vertices)[i]? =
          basins[i - confluences.length]?)) ∧
    (∀ (c : Catchment) (ds us : Mat) (c' : Catchment),
      c.connect = .ok (ds, us, c') → c'.vertices = c.vertices ∧ c'.edges = c.edges) := by
  constructor
  · intro confluences basins reaches
    refine ⟨rfl, rfl, ?_, ?_⟩
    · intro i hi
      exact List.getElem?_append_left hi
    · intro i hi
      exact List.getElem?_append_right hi
  · intro c ds us c' h
    obtain ⟨oi, _, hc'⟩ := connect_ok_elim h
    rw [hc']
    exact ⟨rfl, rfl⟩

/-- Witness for C10: instantiate the preservation part on a concrete
connected catchment and the layout part on concrete lists. -/
theorem init_layout_connect_preserves_witness :
    (demo9.vertices = [{ x := 0, y := 0, kind := .confluence true }] ++ [] ∧
      demo9c.vertices = demo9.vertices ∧ demo9c.edges = demo9.edges) :=
  ⟨(init_layout_connect_preserves.1
      [{ x := 0, y := 0, kind := .confluence true }] [] []).1,
   (init_layout_connect_preserves.2 demo9 sentinelMat sentinelMat demo9c rfl)⟩

/-!  Outlet detection and totality of the connect loops. -/

lemma findOutAux_eq_none (l : List Node) :
    ∀ k, (∀ v ∈ l, v.isOutConf = false) → findOutAux l k = none := by
  induction l with
  | nil => intro k _; rfl
  | cons v rest ih =>
    intro k h
    have hv : v.isOutConf = false := h v (List.mem_cons_self v rest)
    simp only [findOutAux, hv, Bool.false_eq_true, if_false]
    exact ih (k + 1) fun w hw => h w (List.mem_cons_of_mem v hw)

lemma findOutAux_some_elim (l : List Node) :
    ∀ k j, findOutAux l k = some j →
      ∃ i, ∃ h : i < l.length, j = k + i ∧ (l.get ⟨i, h⟩).isOutConf = true ∧
        ∀ m (hm : m < i), (l.get ⟨m, Nat.lt_trans hm h⟩).isOutConf = false := by
  induction l with
  | nil => intro k j h; exact absurd h (by simp [findOutAux])
  | cons v rest ih =>
    intro k j h
    by_cases hv : v.isOutConf = true
    · have hkj : k = j := by simpa [findOutAux, hv] using h
      exact ⟨0, Nat.succ_pos _, by omega, hv, fun m hm => absurd hm (Nat.not_lt_zero m)⟩
    · have hv' : v.isOutConf = false := by
        cases hb : v.isOutConf with
        | true => exact absurd hb hv
        | false => rfl
      rw [findOutAux, hv'] at h
      simp only [Bool.false_eq_true, if_false] at h
      obtain ⟨i, hi, hj, hout, hbefore⟩ := ih (k + 1) j h
      refine ⟨i + 1, Nat.succ_lt_succ hi, by omega, hout, ?_⟩
      intro m hm
      cases m with
      | zero => exact hv'
      | succ m' => exact hbefore m' (Nat.lt_of_succ_lt_succ hm)

lemma findOutAux_some_intro (l : List Node) :
    ∀ k i, ∀ h : i < l.length, (l.get ⟨i, h⟩).isOutConf = true →
      (∀ m (hm : m < i), (l.get ⟨m, Nat.lt_trans hm h⟩).isOutConf = false) →
      findOutAux l k = some (k + i) := by
  induction l with
  | nil => intro k i h; exact absurd h (Nat.not_lt_zero i)
  | cons v rest ih =>
    intro k i h hout hbefore
    cases i with
    | zero =>
      simp only [List.get] at hout
      simp [findOutAux, hout]
    | succ i' =>
      have hv : v.isOutConf = false := hbefore 0 (Nat.succ_pos i')
      rw [findOutAux, hv]
      simp only [Bool.false_eq_true, if_false]
      have := ih (k + 1) i' (Nat.lt_of_succ_lt_succ h)
        (by simpa using hout)
        (fun m hm => by simpa using hbefore (m + 1) (Nat.succ_lt_succ hm))
      rw [this]
      congr 1
      omega

lemma bindEndpoints_ok (vs : List Node) (r : Reach) (h : r.vector ≠ []) :
    ∃ o, bindEndpoints vs r = .ok o := by
  cases hv : r.vector with
  | nil => exact absurd hv h
  | cons a l =>
    have hs : r.getStart = some a := by simp [Reach.getStart, hv]
    have hlast : r.getEnd.isSome := by
      simp only [Reach.getEnd, hv]
      rw [List.getLast?_isSome]
      simp
    obtain ⟨b, hb⟩ := Option.isSome_iff_exists.mp hlast
    rw [bindEndpoints, hs, hb]
    dsimp only
    split
    · exact ⟨none, rfl⟩
    · exact ⟨_, rfl⟩

lemma connLoop_ok (vs : List Node) (rs : List Reach) :
    ∀ e m, (∀ r ∈ rs, r.vector ≠ []) → ∃ m', connLoop vs rs e m = .ok m' := by
  induction rs with
  | nil => intro e m _; exact ⟨m, rfl⟩
  | cons r rest ih =>
    intro e m h
    obtain ⟨o, ho⟩ := bindEndpoints_ok vs r (h r (List.mem_cons_self r rest))
    have hrest : ∀ x ∈ rest, x.vector ≠ [] := fun x hx => h x (List.mem_cons_of_mem r hx)
    cases o with
    | none =>
      rw [connLoop, ho]
      exact ih (e + 1) m hrest
    | some st =>
      obtain ⟨s, t⟩ := st
      rw [connLoop, ho]
      exact ih (e + 1) _ hrest

lemma popLoop_ok (vs : List Node) (rs : List Reach) :
    ∀ e ds us, (∀ r ∈ rs, r.vector ≠ []) →
      ∃ ds' us', popLoop vs rs e (ds, us) = .ok (ds', us') := by
  induction rs with
  | nil => intro e ds us _; exact ⟨ds, us, rfl⟩
  | cons r rest ih =>
    intro e ds us h
    obtain ⟨o, ho⟩ := bindEndpoints_ok vs r (h r (List.mem_cons_self r rest))
    have hrest : ∀ x ∈ rest, x.vector ≠ [] := fun x hx => h x (List.mem_cons_of_mem r hx)
    cases o with
    | none =>
      rw [popLoop, ho]
      exact ih (e + 1) ds us hrest
    | some st =>
      obtain ⟨s, t⟩ := st
      rw [popLoop, ho]
      exact ih (e + 1) _ _ hrest

/-!  Claim C1: outlet-count error handling. -/

/-- Claim C1 (corrected): with no outlet-flagged Confluence, `connect`
raises the no-outlet `ValueError` and produces no incidence tables; but
with one or more outlet-flagged Confluences (in particular two or more)
`connect` does not fail — `_find_out_node` simply stores the first
outlet found in vertex-list order and the incidence tables are
produced.  (Edges are assumed to carry at least one polyline point,
otherwise the first loop raises `IndexError` before the outlet scan.) -/
theorem connect_outlet_behaviour :
    (∀ (c : Catchment), (∀ r ∈ c.edges, r.vector ≠ []) →
      (∀ v ∈ c.vertices, v.isOutConf = false) → c.connect = .error .noOutlet) ∧
    (∀ (c : Catchment) (k : Nat), (∀ r ∈ c.edges, r.vector ≠ []) →
      find_out_node c.vertices = some k →
      ∃ ds us c', c.connect = .ok (ds, us, c') ∧ c'.out_node_index = (k : Int)) ∧
    (∀ (vs : List Node) (k : Nat),
      find_out_node vs = some k ↔
        ∃ h : k < vs.length, (vs.get ⟨k, h⟩).isOutConf = true ∧
          ∀ m (hm : m < k), (vs.get ⟨m, Nat.lt_trans hm h⟩).isOutConf = false) := by
  refine ⟨?_, ?_, ?_⟩
  · intro c hedges hnone
    obtain ⟨m', hm'⟩ := connLoop_ok c.vertices c.edges 0 zeroMat hedges
    have hfo : find_out_node c.vertices = none :=
      findOutAux_eq_none c.vertices 0 hnone
    unfold Catchment.connect connectResult
    rw [hm', hfo]
  · intro c k hedges hfo
    obtain ⟨m', hm'⟩ := connLoop_ok c.vertices c.edges 0 zeroMat hedges
    obtain ⟨ds, us, hpop⟩ := popLoop_ok c.vertices c.edges 0 sentinelMat sentinelMat hedges
    refine ⟨ds, us,
      { c with
        incidenceMatrixDS := ds
        incidenceMatrixUS := us
        out_node_index := (k : Int) }, ?_, rfl⟩
    unfold Catchment.connect connectResult
    rw [hm', hfo, hpop]
  · intro vs k
    constructor
    · intro h
      obtain ⟨i, hi, hki, hout, hbefore⟩ := findOutAux_some_elim vs 0 k h
      have : k = i := by omega
      subst this
      exact ⟨hi, hout, hbefore⟩
    · intro ⟨h, hout, hbefore⟩
      have := findOutAux_some_intro vs 0 k h hout hbefore
      simpa using this

/-- Counterexample to C1 as stated: on `twoOutCatch`, whose two vertices
are both outlet-flagged Confluences, `connect` succeeds (no
multiple-outlets error exists in the code) and records the first outlet,
index 0. -/
theorem connect_two_outlets_succeeds :
    (twoOutCatch.connect.toOption.map fun r => r.2.2.out_node_index) = some 0 := rfl

/-- Witness for the corrected C1 on concrete inputs: a catchment with no
outlet fails with the no-outlet error, and `twoOutCatch` (two outlets,
the premise of `find_out_node = some 0` discharged by evaluation)
connects with outlet index 0. -/
theorem connect_outlet_behaviour_witness :
    (Catchment.init [{ x := 0, y := 0, kind := .confluence false }] [] []).connect
        = .error .noOutlet ∧
      ∃ ds us c', twoOutCatch.connect = .ok (ds, us, c') ∧ c'.out_node_index = (0 : Int) :=
  ⟨connect_outlet_behaviour.1
      (Catchment.init [{ x := 0, y := 0, kind := .confluence false }] [] [])
      (by intro r hr; exact absurd hr (by simp [Catchment.init]))
      (by
        intro v hv
        simp only [Catchment.init, List.append_nil] at hv
        rw [List.mem_singleton] at hv
        rw [hv]
        rfl),
   connect_outlet_behaviour.2.1 twoOutCatch 0
      (by intro r hr; exact absurd hr (by simp [twoOutCatch, Catchment.init]))
      rfl⟩

/-!  Characterization of the two vertex-lookup scans. -/

/-- Invariant of the `_find_closest_vertex` loop once a finite minimum
`m` attained before position `k` is being tracked: the final minimum is
the least distance over the remaining list and `m`, and the final index
is the old one unless some remaining element is strictly closer, in
which case it is the absolute position of the first element attaining
the final minimum. -/
lemma fcLoop_some_spec (p : Point) (l : List Node) :
    ∀ (k : Nat) (m : ℚ) (b : Int),
      ∃ M bi, fcLoop p l k (some m) b = (some M, bi) ∧ M ≤ m ∧
        (∀ j (hj : j < l.length), M ≤ distSq (l.get ⟨j, hj⟩).toPoint p) ∧
        ((bi = b ∧ M = m) ∨
          (∃ j, ∃ hj : j < l.length, bi = ((k + j : Nat) : Int) ∧
            M = distSq (l.get ⟨j, hj⟩).toPoint p ∧ M < m ∧
            ∀ i (hi : i < j), M < distSq (l.get ⟨i, Nat.lt_trans hi hj⟩).toPoint p)) := by
  induction l with
  | nil =>
    intro k m b
    exact ⟨m, b, rfl, le_refl m, fun j hj => absurd hj (Nat.not_lt_zero j),
      Or.inl ⟨rfl, rfl⟩⟩
  | cons v rest ih =>
    intro k m b
    by_cases hd : distSq v.toPoint p < m
    · obtain ⟨M, bi, heq, hle, hall, hcase⟩ := ih (k + 1) (distSq v.toPoint p) (k : Int)
      refine ⟨M, bi, ?_, le_of_lt (lt_of_le_of_lt hle hd), ?_, ?_⟩
      · simp only [fcLoop]
        rw [if_pos hd]
        exact heq
      · intro j hj
        cases j with
        | zero => exact hle
        | succ j' => exact hall j' (Nat.lt_of_succ_lt_succ hj)
      · cases hcase with
        | inl h0 =>
          obtain ⟨hbi, hMd⟩ := h0
          exact Or.inr ⟨0, Nat.succ_pos _, hbi, hMd, hMd ▸ hd,
            fun i hi => absurd hi (Nat.not_lt_zero i)⟩
        | inr h0 =>
          obtain ⟨j, hj, hbi, hM, hMd, hearly⟩ := h0
          refine Or.inr ⟨j + 1, Nat.succ_lt_succ hj,
            by rw [hbi]; exact congrArg _ (by omega), hM, lt_trans hMd hd, ?_⟩
          intro i hi
          cases i with
          | zero => exact hMd
          | succ i' => exact hearly i' (Nat.lt_of_succ_lt_succ hi)
    · have hmd : m ≤ distSq v.toPoint p := le_of_not_lt hd
      obtain ⟨M, bi, heq, hle, hall, hcase⟩ := ih (k + 1) m b
      refine ⟨M, bi, ?_, hle, ?_, ?_⟩
      · simp only [fcLoop]
        rw [if_neg hd]
        exact heq
      · intro j hj
        cases j with
        | zero => exact le_trans hle hmd
        | succ j' => exact hall j' (Nat.lt_of_succ_lt_succ hj)
      · cases hcase with
        | inl h0 => exact Or.inl h0
        | inr h0 =>
          obtain ⟨j, hj, hbi, hM, hMm, hearly⟩ := h0
          refine Or.inr ⟨j + 1, Nat.succ_lt_succ hj,
            by rw [hbi]; exact congrArg _ (by omega), hM, hMm, ?_⟩
          intro i hi
          cases i with
          | zero => exact lt_of_lt_of_le hMm hmd
          | succ i' => exact hearly i' (Nat.lt_of_succ_lt_succ hi)

/-- Full characterization of `_find_closest_vertex`: either it returns
`-1` and every vertex is strictly beyond the tolerance, or it returns
the position of a vertex within the tolerance whose distance is a
minimum over all vertices, every earlier vertex being strictly
farther. -/
lemma find_closest_characterization (vs : List Node) (p : Point) (tolSq : ℚ) :
    (find_closest_vertex vs p tolSq = -1 ∧
      ∀ j (hj : j < vs.length), tolSq < distSq (vs.get ⟨j, hj⟩).toPoint p) ∨
    (∃ j, ∃ hj : j < vs.length, find_closest_vertex vs p tolSq = (j : Int) ∧
      distSq (vs.get ⟨j, hj⟩).toPoint p ≤ tolSq ∧
      (∀ i (hi : i < vs.length),
        distSq (vs.get ⟨j, hj⟩).toPoint p ≤ distSq (vs.get ⟨i, hi⟩).toPoint p) ∧
      (∀ i (hi : i < j),
        distSq (vs.get ⟨j, hj⟩).toPoint p < distSq (vs.get ⟨i, Nat.lt_trans hi hj⟩).toPoint p)) := by
  cases vs with
  | nil => exact Or.inl ⟨rfl, fun j hj => absurd hj (Nat.not_lt_zero j)⟩
  | cons v rest =>
    obtain ⟨M, bi, heq, hle, hall, hcase⟩ := fcLoop_some_spec p rest 1 (distSq v.toPoint p) 0
    have hrun : fcLoop p (v :: rest) 0 none (-1) = (some M, bi) := heq
    have hmain :
        ∃ j, ∃ hj : j < (v :: rest).length, bi = ((j : Nat) : Int) ∧
          M = distSq ((v :: rest).get ⟨j, hj⟩).toPoint p ∧
          (∀ i (hi : i < (v :: rest).length),
            M ≤ distSq ((v :: rest).get ⟨i, hi⟩).toPoint p) ∧
          (∀ i (hi : i < j), M < distSq ((v :: rest).get ⟨i, Nat.lt_trans hi hj⟩).toPoint p) := by
      cases hcase with
      | inl h0 =>
        obtain ⟨hbi, hMd⟩ := h0
        refine ⟨0, Nat.succ_pos _, hbi, hMd, ?_, fun i hi => absurd hi (Nat.not_lt_zero i)⟩
        intro i hi
        cases i with
        | zero => exact le_of_eq hMd
        | succ i' => exact hall i' (Nat.lt_of_succ_lt_succ hi)
      | inr h0 =>
        obtain ⟨j, hj, hbi, hM, hMd, hearly⟩ := h0
        refine ⟨j + 1, Nat.succ_lt_succ hj, by rw [hbi]; exact congrArg _ (by omega), hM, ?_, ?_⟩
        · intro i hi
          cases i with
          | zero => exact le_of_lt hMd
          | succ i' => exact hall i' (Nat.lt_of_succ_lt_succ hi)
        · intro i hi
          cases i with
          | zero => exact hMd
          | succ i' => exact hearly i' (Nat.lt_of_succ_lt_succ hi)
    obtain ⟨j, hj, hbi, hM, hmin, hearly⟩ := hmain
    by_cases htol : tolSq < M
    · refine Or.inl ⟨?_, ?_⟩
      · unfold find_closest_vertex
        rw [hrun]
        dsimp only
        rw [if_pos htol]
      · intro i hi
        exact lt_of_lt_of_le htol (hmin i hi)
    · refine Or.inr ⟨j, hj, ?_, ?_, ?_, ?_⟩
      · unfold find_closest_vertex
        rw [hrun]
        dsimp only
        rw [if_neg htol, hbi]
      · rw [← hM]
        exact le_of_not_lt htol
      · intro i hi
        rw [← hM]
        exact hmin i hi
      · intro i hi
        rw [← hM]
        exact hearly i hi

/-- Characterization of the `_find_vertex_by_coordinates` loop: `-1`
with every element beyond tolerance, or the absolute position of the
first element within tolerance. -/
lemma fvbcLoop_spec (p : Point) (tolSq : ℚ) (l : List Node) :
    ∀ k, (fvbcLoop p tolSq l k = -1 ∧
        ∀ j (hj : j < l.length), tolSq < distSq (l.get ⟨j, hj⟩).toPoint p) ∨
      (∃ j, ∃ hj : j < l.length, fvbcLoop p tolSq l k = ((k + j : Nat) : Int) ∧
        distSq (l.get ⟨j, hj⟩).toPoint p ≤ tolSq ∧
        ∀ i (hi : i < j), tolSq < distSq (l.get ⟨i, Nat.lt_trans hi hj⟩).toPoint p) := by
  induction l with
  | nil => exact fun k => Or.inl ⟨rfl, fun j hj => absurd hj (Nat.not_lt_zero j)⟩
  | cons v rest ih =>
    intro k
    by_cases hd : distSq v.toPoint p ≤ tolSq
    · refine Or.inr ⟨0, Nat.succ_pos _, ?_, hd, fun i hi => absurd hi (Nat.not_lt_zero i)⟩
      simp only [fvbcLoop]
      rw [if_pos hd]
      omega
    · have hrw : fvbcLoop p tolSq (v :: rest) k = fvbcLoop p tolSq rest (k + 1) := by
        simp only [fvbcLoop]
        rw [if_neg hd]
      cases ih (k + 1) with
      | inl h0 =>
        refine Or.inl ⟨by rw [hrw]; exact h0.1, ?_⟩
        intro j hj
        cases j with
        | zero => exact lt_of_not_le hd
        | succ j' => exact h0.2 j' (Nat.lt_of_succ_lt_succ hj)
      | inr h0 =>
        obtain ⟨j, hj, heq, hin, hearly⟩ := h0
        refine Or.inr ⟨j + 1, Nat.succ_lt_succ hj,
          by rw [hrw, heq]; exact congrArg _ (by omega), hin, ?_⟩
        intro i hi
        cases i with
        | zero => exact lt_of_not_le hd
        | succ i' => exact hearly i' (Nat.lt_of_succ_lt_succ hi)

/-- Top-level characterization of `_find_vertex_by_coordinates`. -/
lemma find_vertex_by_coordinates_characterization (vs : List Node) (p : Point) (tolSq : ℚ) :
    (find_vertex_by_coordinates vs p tolSq = -1 ∧
      ∀ j (hj : j < vs.length), tolSq < distSq (vs.get ⟨j, hj⟩).toPoint p) ∨
    (∃ j, ∃ hj : j < vs.length, find_vertex_by_coordinates vs p tolSq = ((j : Nat) : Int) ∧
      distSq (vs.get ⟨j, hj⟩).toPoint p ≤ tolSq ∧
      ∀ i (hi : i < j), tolSq < distSq (vs.get ⟨i, Nat.lt_trans hi hj⟩).toPoint p) := by
  cases fvbcLoop_spec p tolSq vs 0 with
  | inl h0 => exact Or.inl h0
  | inr h0 =>
    obtain ⟨j, hj, heq, hin, hearly⟩ := h0
    refine Or.inr ⟨j, hj, ?_, hin, hearly⟩
    unfold find_vertex_by_coordinates
    rw [heq]
    exact congrArg _ (by omega)

/-!  Claim C7: closest-vertex semantics. -/

/-- Claim C7 (confirmed): `_find_closest_vertex` returns the index of
the vertex at minimum Euclidean distance whenever that minimum is within
the tolerance (a vertex exactly at distance tolerance matches, since the
source rejects only `min_distance > tol`), returns `-1` when the minimum
exceeds the tolerance (or the list is empty), and breaks ties in favour
of the first vertex in list order (every earlier vertex is strictly
farther).  Distances and tolerance appear in squared form. -/
theorem closest_vertex_min_within_tolerance (vs : List Node) (p : Point) (tolSq : ℚ) :
    (find_closest_vertex vs p tolSq = -1 ∧
      ∀ j (hj : j < vs.length), tolSq < distSq (vs.get ⟨j, hj⟩).toPoint p) ∨
    (∃ j, ∃ hj : j < vs.length, find_closest_vertex vs p tolSq = (j : Int) ∧
      distSq (vs.get ⟨j, hj⟩).toPoint p ≤ tolSq ∧
      (∀ i (hi : i < vs.length),
        distSq (vs.get ⟨j, hj⟩).toPoint p ≤ distSq (vs.get ⟨i, hi⟩).toPoint p) ∧
      (∀ i (hi : i < j),
        distSq (vs.get ⟨j, hj⟩).toPoint p < distSq (vs.get ⟨i, Nat.lt_trans hi hj⟩).toPoint p)) :=
  find_closest_characterization vs p tolSq

/-- Witness for C7 at a concrete vertex list and query point. -/
theorem closest_vertex_min_within_tolerance_witness :
    (find_closest_vertex vs7 ⟨1, 0⟩ closeTolSq = -1 ∧
      ∀ j (hj : j < vs7.length), closeTolSq < distSq (vs7.get ⟨j, hj⟩).toPoint ⟨1, 0⟩) ∨
    (∃ j, ∃ hj : j < vs7.length, find_closest_vertex vs7 ⟨1, 0⟩ closeTolSq = (j : Int) ∧
      distSq (vs7.get ⟨j, hj⟩).toPoint ⟨1, 0⟩ ≤ closeTolSq ∧
      (∀ i (hi : i < vs7.length),
        distSq (vs7.get ⟨j, hj⟩).toPoint ⟨1, 0⟩ ≤ distSq (vs7.get ⟨i, hi⟩).toPoint ⟨1, 0⟩) ∧
      (∀ i (hi : i < j),
        distSq (vs7.get ⟨j, hj⟩).toPoint ⟨1, 0⟩ <
          distSq (vs7.get ⟨i, Nat.lt_trans hi hj⟩).toPoint ⟨1, 0⟩)) :=
  closest_vertex_min_within_tolerance vs7 ⟨1, 0⟩ closeTolSq

/-!  Claim C8: the two lookups do not have identical semantics. -/

/-- Counterexample to C8 as stated: against `vs8` and the origin (both
vertices within the tolerance 0.1), `_find_vertex_by_coordinates`
returns the first within-tolerance vertex (index 0, at distance 0.09)
while `_find_closest_vertex` returns the minimum-distance vertex
(index 1, at distance 0.01) — same point, list and tolerance, different
results. -/
theorem by_coordinates_ne_closest :
    find_vertex_by_coordinates vs8 ⟨0, 0⟩ reIdTolSq = 0 ∧
      find_closest_vertex vs8 ⟨0, 0⟩ reIdTolSq = 1 := by
  with_unfolding_all decide

/-- Claim C8 (corrected): `_find_vertex_by_coordinates` returns the
first vertex within tolerance, not the minimum-distance one, so the two
lookups agree only when at most one vertex lies within the tolerance
(which holds at every call site that re-identifies a vertex from its own
stored coordinates on well-separated vertices, but not in general). -/
theorem by_coordinates_eq_closest_of_unique (vs : List Node) (p : Point) (tolSq : ℚ)
    (huniq : ∀ i (hi : i < vs.length), ∀ j (hj : j < vs.length),
      distSq (vs.get ⟨i, hi⟩).toPoint p ≤ tolSq →
      distSq (vs.get ⟨j, hj⟩).toPoint p ≤ tolSq → i = j) :
    find_vertex_by_coordinates vs p tolSq = find_closest_vertex vs p tolSq := by
  cases find_vertex_by_coordinates_characterization vs p tolSq with
  | inl hf =>
    cases find_closest_characterization vs p tolSq with
    | inl hc => rw [hf.1, hc.1]
    | inr hc =>
      obtain ⟨j, hj, _, hin, _, _⟩ := hc
      exact absurd hin (not_le.mpr (hf.2 j hj))
  | inr hf =>
    obtain ⟨j, hj, heqf, hinf, _⟩ := hf
    cases find_closest_characterization vs p tolSq with
    | inl hc =>
      exact absurd hinf (not_le.mpr (hc.2 j hj))
    | inr hc =>
      obtain ⟨j', hj', heqc, hinc, _, _⟩ := hc
      have : j = j' := huniq j hj j' hj' hinf hinc
      rw [heqf, heqc, this]

/-- Witness for the corrected C8: with a single vertex the uniqueness
premise holds and the two lookups coincide. -/
theorem by_coordinates_eq_closest_of_unique_witness :
    find_vertex_by_coordinates [{ x := 0, y := 0, kind := .confluence true }] ⟨0, 0⟩ reIdTolSq =
      find_closest_vertex [{ x := 0, y := 0, kind := .confluence true }] ⟨0, 0⟩ reIdTolSq :=
  by_coordinates_eq_closest_of_unique
    [{ x := 0, y := 0, kind := .confluence true }] ⟨0, 0⟩ reIdTolSq
    (fun i hi j hj _ _ => by
      simp only [List.length_singleton] at hi hj
      omega)

/-!  Claim C6: which tolerance is used where. -/

/-- Counterexample to C6 as stated: `c6Catch`'s only reach starts 0.05
units away from Basin `A`.  Under the claim, endpoint binding uses a
loose 0.1 tolerance, so the edge would bind and `DS[1][0]` would be the
outlet 0; in the code, binding goes through `_find_closest_vertex` with
the tight default 1e-6, the lookup fails, the edge is skipped, and the
entry stays at the sentinel.  Conversely the claim gives re-identification
a tight 1e-6 tolerance which would reject a 0.05 offset, yet
`_find_vertex_by_coordinates` (default 1e-1) accepts it. -/
theorem tolerance_orientation_counterexample :
    (c6Catch.connect.toOption.map fun r => r.1 1 0) = some endSentinel ∧
      find_closest_vertex c6Catch.vertices ⟨10, 1/20⟩ closeTolSq = -1 ∧
      find_vertex_by_coordinates c6Catch.vertices ⟨10, 1/20⟩ reIdTolSq = 1 := by
  with_unfolding_all decide

/-- Claim C6 (corrected): the tolerances are the reverse of the claim —
edge-endpoint binding in `connect` (through `bindEndpoints`, i.e.
`_find_closest_vertex` at its default) uses the tight tolerance 1e-6,
and coordinate re-identification during incidence building (through
`_find_vertex_by_coordinates` at its default, used by `bfsScan`) uses
the loose tolerance 1e-1: a successful binding implies a vertex within
the tight squared tolerance, a successful re-identification only one
within the loose squared tolerance, and the binding tolerance is
strictly smaller. -/
theorem binding_tight_reid_loose :
    (∀ (vs : List Node) (p : Point),
      find_closest_vertex vs p closeTolSq ≠ -1 →
        ∃ j, ∃ hj : j < vs.length, distSq (vs.get ⟨j, hj⟩).toPoint p ≤ closeTolSq) ∧
    (∀ (vs : List Node) (p : Point),
      find_vertex_by_coordinates vs p reIdTolSq ≠ -1 →
        ∃ j, ∃ hj : j < vs.length, distSq (vs.get ⟨j, hj⟩).toPoint p ≤ reIdTolSq) ∧
    closeTolSq < reIdTolSq := by
  refine ⟨?_, ?_, by with_unfolding_all decide⟩
  · intro vs p h
    cases find_closest_characterization vs p closeTolSq with
    | inl h0 => exact absurd h0.1 h
    | inr h0 =>
      obtain ⟨j, hj, _, hin, _, _⟩ := h0
      exact ⟨j, hj, hin⟩
  · intro vs p h
    cases find_vertex_by_coordinates_characterization vs p reIdTolSq with
    | inl h0 => exact absurd h0.1 h
    | inr h0 =>
      obtain ⟨j, hj, _, hin, _⟩ := h0
      exact ⟨j, hj, hin⟩

/-- Witness for the corrected C6: concrete successful lookups located
within the respective tolerances. -/
theorem binding_tight_reid_loose_witness :
    (∃ j, ∃ hj : j < vs7.length, distSq (vs7.get ⟨j, hj⟩).toPoint ⟨1, 0⟩ ≤ closeTolSq) ∧
    (∃ j, ∃ hj : j < c6Catch.vertices.length,
      distSq (c6Catch.vertices.get ⟨j, hj⟩).toPoint ⟨10, 1/20⟩ ≤ reIdTolSq) :=
  ⟨binding_tight_reid_loose.1 vs7 ⟨1, 0⟩ (by with_unfolding_all decide),
   binding_tight_reid_loose.2.1 c6Catch.vertices ⟨10, 1/20⟩ (by with_unfolding_all decide)⟩

/-!  Characterization of the incidence-filling loop of `connect`. -/

lemma mupd_same (m : Mat) (i j : Nat) (v : Int) : mupd m i j v i j = v := by
  unfold mupd
  rw [if_pos ⟨rfl, rfl⟩]

lemma mupd_ne_col (m : Mat) (i j : Nat) (v : Int) (a b : Nat) (h : b ≠ j) :
    mupd m i j v a b = m a b := by
  unfold mupd
  rw [if_neg]
  rintro ⟨_, hb⟩
  exact h hb

/-- Columns below the running edge index are never touched by the
incidence loop. -/
lemma popLoop_lt_col (vs : List Node) (rs : List Reach) :
    ∀ e ds us ds' us', popLoop vs rs e (ds, us) = .ok (ds', us') →
      ∀ v j, j < e → ds' v j = ds v j ∧ us' v j = us v j := by
  induction rs with
  | nil =>
    intro e ds us ds' us' h v j _
    simp only [popLoop, Except.ok.injEq, Prod.mk.injEq] at h
    rw [← h.1, ← h.2]
    exact ⟨rfl, rfl⟩
  | cons r rest ih =>
    intro e ds us ds' us' h v j hj
    rw [popLoop] at h
    cases hb : bindEndpoints vs r with
    | error err => rw [hb] at h; exact absurd h (by simp)
    | ok o =>
      rw [hb] at h
      cases o with
      | none => exact ih (e + 1) ds us ds' us' h v j (Nat.lt_succ_of_lt hj)
      | some st =>
        obtain ⟨s, t⟩ := st
        have := ih (e + 1) _ _ ds' us' h v j (Nat.lt_succ_of_lt hj)
        rw [this.1, this.2, mupd_ne_col _ _ _ _ _ _ (Nat.ne_of_lt hj),
          mupd_ne_col _ _ _ _ _ _ (Nat.ne_of_lt hj)]
        exact ⟨rfl, rfl⟩

/-- The downstream entry written by the incidence loop at column
`e + k` is determined by the endpoint binding of the `k`-th remaining
edge alone. -/
lemma popLoop_ds_entry (vs : List Node) (rs : List Reach) :
    ∀ e ds us ds' us', popLoop vs rs e (ds, us) = .ok (ds', us') →
      ∀ k (hk : k < rs.length) (v : Nat),
        ds' v (e + k) =
          match bindEndpoints vs (rs.get ⟨k, hk⟩) with
          | .ok (some (s, t)) => if v = s then (t : Int) else ds v (e + k)
          | _ => ds v (e + k) := by
  induction rs with
  | nil => intro e ds us ds' us' _ k hk; exact absurd hk (Nat.not_lt_zero k)
  | cons r rest ih =>
    intro e ds us ds' us' h k hk v
    rw [popLoop] at h
    cases hb : bindEndpoints vs r with
    | error err => rw [hb] at h; exact absurd h (by simp)
    | ok o =>
      rw [hb] at h
      cases o with
      | none =>
        cases k with
        | zero =>
          have hget : (r :: rest).get ⟨0, hk⟩ = r := rfl
          rw [hget, hb]
          exact (popLoop_lt_col vs rest (e + 1) ds us ds' us' h v e (Nat.lt_succ_self e)).1
        | succ k' =>
          have harith : e + (k' + 1) = (e + 1) + k' := by omega
          rw [harith]
          exact ih (e + 1) ds us ds' us' h k' (Nat.lt_of_succ_lt_succ hk) v
      | some st =>
        obtain ⟨s, t⟩ := st
        cases k with
        | zero =>
          have hget : (r :: rest).get ⟨0, hk⟩ = r := rfl
          rw [hget, hb]
          have hcol :=
            (popLoop_lt_col vs rest (e + 1) _ _ ds' us' h v e (Nat.lt_succ_self e)).1
          simp only [Nat.add_zero]
          rw [hcol]
          unfold mupd
          by_cases hv : v = s
          · rw [if_pos ⟨hv, rfl⟩, if_pos hv]
          · rw [if_neg (by rintro ⟨h1, _⟩; exact hv h1), if_neg hv]
        | succ k' =>
          have harith : e + (k' + 1) = (e + 1) + k' := by omega
          rw [harith]
          have hrec := ih (e + 1) _ _ ds' us' h k' (Nat.lt_of_succ_lt_succ hk) v
          have hbase : mupd ds s e (t : Int) v ((e + 1) + k') = ds v ((e + 1) + k') :=
            mupd_ne_col _ _ _ _ _ _ (by omega)
          rw [hbase] at hrec
          exact hrec

/-- The upstream entry written by the incidence loop at column `e + k`
is determined by the endpoint binding of the `k`-th remaining edge
alone. -/
lemma popLoop_us_entry (vs : List Node) (rs : List Reach) :
    ∀ e ds us ds' us', popLoop vs rs e (ds, us) = .ok (ds', us') →
      ∀ k (hk : k < rs.length) (v : Nat),
        us' v (e + k) =
          match bindEndpoints vs (rs.get ⟨k, hk⟩) with
          | .ok (some (s, t)) => if v = t then (s : Int) else us v (e + k)
          | _ => us v (e + k) := by
  induction rs with
  | nil => intro e ds us ds' us' _ k hk; exact absurd hk (Nat.not_lt_zero k)
  | cons r rest ih =>
    intro e ds us ds' us' h k hk v
    rw [popLoop] at h
    cases hb : bindEndpoints vs r with
    | error err => rw [hb] at h; exact absurd h (by simp)
    | ok o =>
      rw [hb] at h
      cases o with
      | none =>
        cases k with
        | zero =>
          have hget : (r :: rest).get ⟨0, hk⟩ = r := rfl
          rw [hget, hb]
          exact (popLoop_lt_col vs rest (e + 1) ds us ds' us' h v e (Nat.lt_succ_self e)).2
        | succ k' =>
          have harith : e + (k' + 1) = (e + 1) + k' := by omega
          rw [harith]
          exact ih (e + 1) ds us ds' us' h k' (Nat.lt_of_succ_lt_succ hk) v
      | some st =>
        obtain ⟨s, t⟩ := st
        cases k with
        | zero =>
          have hget : (r :: rest).get ⟨0, hk⟩ = r := rfl
          rw [hget, hb]
          have hcol :=
            (popLoop_lt_col vs rest (e + 1) _ _ ds' us' h v e (Nat.lt_succ_self e)).2
          simp only [Nat.add_zero]
          rw [hcol]
          unfold mupd
          by_cases hv : v = t
          · rw [if_pos ⟨hv, rfl⟩, if_pos hv]
          · rw [if_neg (by rintro ⟨h1, _⟩; exact hv h1), if_neg hv]
        | succ k' =>
          have harith : e + (k' + 1) = (e + 1) + k' := by omega
          rw [harith]
          have hrec := ih (e + 1) _ _ ds' us' h k' (Nat.lt_of_succ_lt_succ hk) v
          have hbase : mupd us t e (s : Int) v ((e + 1) + k') = us v ((e + 1) + k') :=
            mupd_ne_col _ _ _ _ _ _ (by omega)
          rw [hbase] at hrec
          exact hrec

/-- Eliminating a successful `connectResult`. -/
lemma connectResult_ok_elim {vs : List Node} {es : List Reach} {ds us : Mat} {oi : Nat}
    (h : connectResult vs es = .ok (ds, us, oi)) :
    popLoop vs es 0 (sentinelMat, sentinelMat) = .ok (ds, us) ∧
      find_out_node vs = some oi := by
  unfold connectResult at h
  cases h1 : connLoop vs es 0 zeroMat with
  | error err => rw [h1] at h; exact absurd h (by simp)
  | ok m =>
    rw [h1] at h
    cases h2 : find_out_node vs with
    | none => rw [h2] at h; exact absurd h (by simp)
    | some k =>
      rw [h2] at h
      cases h3 : popLoop vs es 0 (sentinelMat, sentinelMat) with
      | error err => rw [h3] at h; exact absurd h (by simp)
      | ok du =>
        obtain ⟨d, u⟩ := du
        rw [h3] at h
        simp only [Except.ok.injEq, Prod.mk.injEq] at h
        obtain ⟨hd, hu, hk⟩ := h
        subst hd; subst hu; subst hk
        exact ⟨rfl, rfl⟩

/-!  Claim C3: how the incidence tables are actually produced. -/

/-- Counterexample to C3 as stated: on `c3Catch` the reach `B → C` lies
in a component disconnected from the outlet, so a breadth-first
propagation seeded at the outlet never reaches the pairs `(B, 1)` and
`(C, 1)` — and indeed the embedded `_build_incidence_matrices` leaves
both at the sentinel.  But the tables `connect` returns carry
`DS[B][1] = C` and `US[C][1] = B`: `connect` fills them with a direct
per-edge pass and never invokes the BFS builder. -/
theorem connect_disconnected_entries_not_bfs :
    (c3Catch.connect.toOption.map fun r => (r.1 2 1, r.2.1 3 1)) = some (3, 2) ∧
      c3BfsEntry = some (endSentinel, endSentinel) := by
  with_unfolding_all decide

/-- Claim C3 (corrected): the tables returned by `connect` come from a
single per-edge pass that ignores the outlet and reachability: an entry
`DS[v][e]` (resp. `US[v][e]`) is non-sentinel exactly when edge `e`
binds both endpoints and `v` is its bound start (resp. end) vertex —
entries stay at the sentinel only for unbound pairs, not for pairs
unreached from the outlet. -/
theorem connect_tables_per_edge (c : Catchment) (ds us : Mat) (c' : Catchment)
    (h : c.connect = .ok (ds, us, c')) (v e : Nat) (he : e < c.edges.length) :
    (ds v e ≠ endSentinel ↔
      ∃ s t, bindEndpoints c.vertices (c.edges.get ⟨e, he⟩) = .ok (some (s, t)) ∧
        v = s ∧ ds v e = (t : Int)) ∧
    (us v e ≠ endSentinel ↔
      ∃ s t, bindEndpoints c.vertices (c.edges.get ⟨e, he⟩) = .ok (some (s, t)) ∧
        v = t ∧ us v e = (s : Int)) := by
  obtain ⟨oi, hr, _⟩ := connect_ok_elim h
  obtain ⟨hpop, _⟩ := connectResult_ok_elim hr
  have hds := popLoop_ds_entry c.vertices c.edges 0 sentinelMat sentinelMat ds us hpop e he v
  have hus := popLoop_us_entry c.vertices c.edges 0 sentinelMat sentinelMat ds us hpop e he v
  rw [Nat.zero_add] at hds hus
  cases hb : bindEndpoints c.vertices (c.edges.get ⟨e, he⟩) with
  | error err =>
    rw [hb] at hds hus
    have hds' : ds v e = endSentinel := hds
    have hus' : us v e = endSentinel := hus
    constructor
    · constructor
      · intro hne; exact absurd hds' hne
      · rintro ⟨s, t, hbb, _, _⟩; exact absurd hbb (by simp)
    · constructor
      · intro hne; exact absurd hus' hne
      · rintro ⟨s, t, hbb, _, _⟩; exact absurd hbb (by simp)
  | ok o =>
    cases o with
    | none =>
      rw [hb] at hds hus
      have hds' : ds v e = endSentinel := hds
      have hus' : us v e = endSentinel := hus
      constructor
      · constructor
        · intro hne; exact absurd hds' hne
        · rintro ⟨s, t, hbb, _, _⟩; exact absurd hbb (by simp)
      · constructor
        · intro hne; exact absurd hus' hne
        · rintro ⟨s, t, hbb, _, _⟩; exact absurd hbb (by simp)
    | some st =>
      obtain ⟨s, t⟩ := st
      rw [hb] at hds hus
      have hds' : ds v e = if v = s then (t : Int) else endSentinel := hds
      have hus' : us v e = if v = t then (s : Int) else endSentinel := hus
      constructor
      · constructor
        · intro hne
          by_cases hv : v = s
          · rw [if_pos hv] at hds'
            exact ⟨s, t, rfl, hv, hds'⟩
          · rw [if_neg hv] at hds'
            exact absurd hds' hne
        · rintro ⟨s', t', hbb, _, hval⟩
          rw [hval]
          simp only [endSentinel]
          omega
      · constructor
        · intro hne
          by_cases hv : v = t
          · rw [if_pos hv] at hus'
            exact ⟨s, t, rfl, hv, hus'⟩
          · rw [if_neg hv] at hus'
            exact absurd hus' hne
        · rintro ⟨s', t', hbb, _, hval⟩
          rw [hval]
          simp only [endSentinel]
          omega

/-- Witness for the corrected C3: the characterization applied to the
connected `c3Catch` at the disconnected pair `(B, 1)`. -/
theorem connect_tables_per_edge_witness :
    ∃ ds us c', c3Catch.connect = .ok (ds, us, c') ∧
      (ds 2 1 ≠ endSentinel ↔
        ∃ s t, bindEndpoints c3Catch.vertices (c3Catch.edges.get ⟨1, by decide⟩)
            = .ok (some (s, t)) ∧ 2 = s ∧ ds 2 1 = (t : Int)) := by
  cases hc : c3Catch.connect with
  | error err =>
    exfalso
    have hnone : c3Catch.connect.toOption = none := by rw [hc]; rfl
    have hsome : c3Catch.connect.toOption.isSome = true := by with_unfolding_all decide
    rw [hnone] at hsome
    exact absurd hsome (by decide)
  | ok v =>
    obtain ⟨ds, us, c'⟩ := v
    exact ⟨ds, us, c', rfl,
      (connect_tables_per_edge c3Catch ds us c' hc 2 1 (by decide)).1⟩

/-!  Claim C2: multiple downstream entries for one vertex. -/

/-- Counterexample to C2 as stated: on `c2Catch`, whose two reaches both
start at Basin `A` (vertex 2), `connect` succeeds — no data error — and
the downstream table row of `A` holds the two non-sentinel entries
`DS[A][0] = O` and `DS[A][1] = K`. -/
theorem multiple_downstream_entries_no_error :
    (c2Catch.connect.toOption.map fun r => (r.1 2 0, r.1 2 1)) = some (0, 1) := by
  with_unfolding_all decide

/-- Claim C2 (corrected): `connect` records one downstream entry per
bound edge at that edge's bound start vertex; when two edges bind their
start to the same vertex, both entries are recorded silently in that
vertex's row of the downstream table and no error is raised. -/
theorem two_edges_same_start_both_recorded (c : Catchment) (ds us : Mat) (c' : Catchment)
    (h : c.connect = .ok (ds, us, c'))
    (e1 e2 : Nat) (he1 : e1 < c.edges.length) (he2 : e2 < c.edges.length)
    (s t1 t2 : Nat)
    (hb1 : bindEndpoints c.vertices (c.edges.get ⟨e1, he1⟩) = .ok (some (s, t1)))
    (hb2 : bindEndpoints c.vertices (c.edges.get ⟨e2, he2⟩) = .ok (some (s, t2))) :
    ds s e1 = (t1 : Int) ∧ ds s e2 = (t2 : Int) ∧
      ds s e1 ≠ endSentinel ∧ ds s e2 ≠ endSentinel := by
  obtain ⟨oi, hr, _⟩ := connect_ok_elim h
  obtain ⟨hpop, _⟩ := connectResult_ok_elim hr
  have hd1 := popLoop_ds_entry c.vertices c.edges 0 sentinelMat sentinelMat ds us hpop e1 he1 s
  have hd2 := popLoop_ds_entry c.vertices c.edges 0 sentinelMat sentinelMat ds us hpop e2 he2 s
  rw [Nat.zero_add] at hd1 hd2
  rw [hb1] at hd1
  rw [hb2] at hd2
  have hd1' : ds s e1 = if s = s then (t1 : Int) else endSentinel := hd1
  have hd2' : ds s e2 = if s = s then (t2 : Int) else endSentinel := hd2
  rw [if_pos rfl] at hd1' hd2'
  refine ⟨hd1', hd2', ?_, ?_⟩
  · rw [hd1']
    simp only [endSentinel]
    omega
  · rw [hd2']
    simp only [endSentinel]
    omega

/-- Witness for the corrected C2 on `c2Catch`: both reaches bind their
start to Basin `A` (vertex 2) and both downstream entries appear in
row 2. -/
theorem two_edges_same_start_both_recorded_witness :
    ∃ ds us c', c2Catch.connect = .ok (ds, us, c') ∧
      ds 2 0 = (0 : Int) ∧ ds 2 1 = (1 : Int) ∧
      ds 2 0 ≠ endSentinel ∧ ds 2 1 ≠ endSentinel := by
  cases hc : c2Catch.connect with
  | error err =>
    exfalso
    have hnone : c2Catch.connect.toOption = none := by rw [hc]; rfl
    have hsome : c2Catch.connect.toOption.isSome = true := by with_unfolding_all decide
    rw [hnone] at hsome
    exact absurd hsome (by decide)
  | ok v =>
    obtain ⟨ds, us, c'⟩ := v
    have h1 : bindEndpoints c2Catch.vertices (c2Catch.edges.get ⟨0, by decide⟩)
        = .ok (some (2, 0)) := by with_unfolding_all decide
    have h2 : bindEndpoints c2Catch.vertices (c2Catch.edges.get ⟨1, by decide⟩)
        = .ok (some (2, 1)) := by with_unfolding_all decide
    obtain ⟨ha, hb, hc1, hc2⟩ :=
      two_edges_same_start_both_recorded c2Catch ds us c' hc 0 1 (by decide) (by decide)
        2 0 1 h1 h2
    exact ⟨ds, us, c', rfl, ha, hb, hc1, hc2⟩

/-!  The downstream-skip resolution of `WBNM._getDsIndex`. -/

lemma chainD_shift (t : Traveller) (i : Int) :
    ∀ k, chainD t (t.down i) k = chainD t i (k + 1) := by
  intro k
  induction k with
  | zero => rfl
  | succ k ih =>
    show t.down (chainD t (t.down i) k) = t.down (chainD t i (k + 1))
    rw [ih]

/-!  Claim C4: what a returned result of `_getDsIndex` is. -/

/-- Claim C4 (confirmed): whenever the recursion of `WBNM._getDsIndex`
returns a result, that result is obtained by following the single
downstream link repeatedly: every intermediate vertex inspected is a
Confluence not flagged as outlet (skipped), and the value returned is
either the first Basin reached along the chain, or the end-of-traversal
sentinel when the chain reaches the outlet Confluence before any
Basin. -/
theorem getDsIndex_skips_confluences (t : Traveller) (fuel : Nat) (i r : Int)
    (h : getDsIndex t fuel i = some r) :
    ∃ k, k < fuel ∧
      (∀ m, m < k → ∃ nm, t.getNode (chainD t i (m + 1)) = some nm ∧
        nm.kind = .confluence false) ∧
      ((∃ n a f, t.getNode (chainD t i (k + 1)) = some n ∧ n.kind = .basin a f ∧
          r = chainD t i (k + 1)) ∨
        (∃ n, t.getNode (chainD t i (k + 1)) = some n ∧ n.kind = .confluence true ∧
          r = endSentinel)) := by
  induction fuel generalizing i with
  | zero => exact absurd h (by simp [getDsIndex])
  | succ fuel ih =>
    rw [getDsIndex] at h
    cases hn : t.getNode (t.down i) with
    | none => rw [hn] at h; exact absurd h (by simp)
    | some n =>
      rw [hn] at h
      dsimp only at h
      cases hk : n.kind with
      | basin a f =>
        rw [hk] at h
        dsimp only at h
        simp only [Option.some.injEq] at h
        refine ⟨0, Nat.succ_pos _, fun m hm => absurd hm (Nat.not_lt_zero m), Or.inl ?_⟩
        exact ⟨n, a, f, hn, hk, h.symm⟩
      | confluence b =>
        cases b with
        | true =>
          rw [hk] at h
          dsimp only at h
          simp only [Option.some.injEq] at h
          refine ⟨0, Nat.succ_pos _, fun m hm => absurd hm (Nat.not_lt_zero m), Or.inr ?_⟩
          exact ⟨n, hn, hk, h.symm⟩
        | false =>
          rw [hk] at h
          dsimp only at h
          obtain ⟨k, hkf, hskip, hterm⟩ := ih (t.down i) h
          refine ⟨k + 1, Nat.succ_lt_succ hkf, ?_, ?_⟩
          · intro m hm
            cases m with
            | zero => exact ⟨n, hn, hk⟩
            | succ m' =>
              have := hskip m' (Nat.lt_of_succ_lt_succ hm)
              rw [chainD_shift] at this
              exact this
          · rw [chainD_shift] at hterm
            exact hterm

/-- Witness for C4 on the spec's chain
Basin → Confluence → Confluence → Basin → Outlet: starting at vertex 0
the recursion returns vertex 3, the next Basin, skipping both
Confluences. -/
theorem getDsIndex_skips_confluences_witness :
    getDsIndex chainT 4 0 = some 3 ∧
      (∃ k, k < 4 ∧
        (∀ m, m < k → ∃ nm, chainT.getNode (chainD chainT 0 (m + 1)) = some nm ∧
          nm.kind = .confluence false) ∧
        ((∃ n a f, chainT.getNode (chainD chainT 0 (k + 1)) = some n ∧ n.kind = .basin a f ∧
            (3 : Int) = chainD chainT 0 (k + 1)) ∨
          (∃ n, chainT.getNode (chainD chainT 0 (k + 1)) = some n ∧
            n.kind = .confluence true ∧ (3 : Int) = endSentinel))) :=
  ⟨by decide, getDsIndex_skips_confluences chainT 4 0 3 (by decide)⟩

/-!  Claim C5: termination behaviour of the downstream-skip resolution. -/

/-- On a chain whose first `k` steps lead through non-outlet Confluences
to a vertex that is not a non-outlet Confluence, the recursion returns a
result with any fuel exceeding `k`. -/
lemma getDsIndex_terminates (t : Traveller) :
    ∀ (k : Nat) (i : Int),
      (∀ m, m < k → ∃ nm, t.getNode (chainD t i (m + 1)) = some nm ∧
        nm.kind = .confluence false) →
      (∃ n, t.getNode (chainD t i (k + 1)) = some n ∧ n.kind ≠ .confluence false) →
      ∀ fuel, k < fuel → ∃ r, getDsIndex t fuel i = some r := by
  intro k
  induction k with
  | zero =>
    intro i _ hterm fuel hfuel
    obtain ⟨n, hn, hkind⟩ := hterm
    obtain ⟨fuel', rfl⟩ : ∃ f, fuel = f + 1 :=
      ⟨fuel - 1, by omega⟩
    rw [getDsIndex]
    have hn1 : t.getNode (t.down i) = some n := hn
    rw [hn1]
    dsimp only
    cases hk : n.kind with
    | basin a f => exact ⟨t.down i, rfl⟩
    | confluence b =>
      cases b with
      | true => exact ⟨endSentinel, rfl⟩
      | false => exact absurd hk hkind
  | succ k ih =>
    intro i hskip hterm fuel hfuel
    obtain ⟨fuel', rfl⟩ : ∃ f, fuel = f + 1 :=
      ⟨fuel - 1, by omega⟩
    obtain ⟨n0, hn0, hk0⟩ := hskip 0 (Nat.succ_pos k)
    rw [getDsIndex]
    have hn1 : t.getNode (t.down i) = some n0 := hn0
    rw [hn1]
    dsimp only
    rw [hk0]
    refine ih (t.down i) ?_ ?_ fuel' (Nat.lt_of_succ_lt_succ hfuel)
    · intro m hm
      have := hskip (m + 1) (Nat.succ_lt_succ hm)
      rw [← chainD_shift] at this
      exact this
    · obtain ⟨n, hn, hkind⟩ := hterm
      rw [← chainD_shift] at hn
      exact ⟨n, hn, hkind⟩

/-- On the two-Confluence cycle the recursion never returns, whatever
the fuel. -/
lemma cyc_diverges : ∀ fuel, getDsIndex cycT fuel 0 = none ∧ getDsIndex cycT fuel 1 = none := by
  intro fuel
  induction fuel with
  | zero => exact ⟨rfl, rfl⟩
  | succ fuel ih => exact ⟨ih.2, ih.1⟩

/-- Counterexample to C5 as stated: on the cycle `cycT` of two
non-outlet Confluences, the recursion has produced no result — and in
particular no `MalformedTopology` failure, which does not exist in the
code — after `vertexCount()` (= 2) recursive steps, nor after 100. -/
theorem cyc_no_result_within_vertex_count :
    getDsIndex cycT cycT.nodes.length 0 = none ∧ getDsIndex cycT 100 0 = none := by
  decide

/-- Claim C5 (corrected): on well-formed inputs the recursion of
`WBNM._getDsIndex` terminates within chain-depth steps (any fuel larger
than the number of skipped Confluences suffices), but on a cycle of
non-outlet Confluences it never returns: the source recursion has no
cycle guard and no `MalformedTopology` error, and diverges instead of
failing loudly within `vertexCount()` steps. -/
theorem resolve_termination_and_cycle_divergence :
    (∀ (t : Traveller) (k : Nat) (i : Int),
      (∀ m, m < k → ∃ nm, t.getNode (chainD t i (m + 1)) = some nm ∧
        nm.kind = .confluence false) →
      (∃ n, t.getNode (chainD t i (k + 1)) = some n ∧ n.kind ≠ .confluence false) →
      ∀ fuel, k < fuel → ∃ r, getDsIndex t fuel i = some r) ∧
    (∀ fuel, getDsIndex cycT fuel 0 = none) :=
  ⟨fun t k i hskip hterm fuel hfuel => getDsIndex_terminates t k i hskip hterm fuel hfuel,
   fun fuel => (cyc_diverges fuel).1⟩

/-- Witness for the corrected C5: on the concrete chain the premises
hold with two skipped Confluences and fuel 4, so a result exists; and on
the concrete cycle fuel 5 yields none. -/
theorem resolve_termination_and_cycle_divergence_witness :
    (∃ r, getDsIndex chainT 4 0 = some r) ∧ getDsIndex cycT 5 0 = none :=
  ⟨resolve_termination_and_cycle_divergence.1 chainT 2 0
      (by
        intro m hm
        cases m with
        | zero => exact ⟨_, rfl, rfl⟩
        | succ m' =>
          cases m' with
          | zero => exact ⟨_, rfl, rfl⟩
          | succ m'' => omega)
      ⟨_, rfl, by decide⟩
      4 (by omega),
   resolve_termination_and_cycle_divergence.2 5⟩

end Pyromb
